import Mathlib

/-!
Verification of the s3sync diff-and-sync engine (s3sync.py).

The source is shallowly embedded: bytes are `Nat` below 256, Python strings
are Lean `String`s, `OrderedDict`s are association lists in insertion order,
the filesystem and the S3 client are explicit oracle parameters, and machine
behaviour that matters (MD5's 32-bit arithmetic) is modelled with explicit
`% 2 ^ 32`.
-/

set_option maxRecDepth 100000

/-! ### MD5 (hashlib.md5), executable, over byte lists -/

def m32 : Nat := 4294967296

def mask32 : Nat := 4294967295

def add32 (a b : Nat) : Nat := (a + b) % m32

def rotl32 (x s : Nat) : Nat := ((x <<< s) ||| (x >>> (32 - s))) % m32

def md5K : List Nat :=
  [0xd76aa478, 0xe8c7b756, 0x242070db, 0xc1bdceee,
   0xf57c0faf, 0x4787c62a, 0xa8304613, 0xfd469501,
   0x698098d8, 0x8b44f7af, 0xffff5bb1, 0x895cd7be,
   0x6b901122, 0xfd987193, 0xa679438e, 0x49b40821,
   0xf61e2562, 0xc040b340, 0x265e5a51, 0xe9b6c7aa,
   0xd62f105d, 0x02441453, 0xd8a1e681, 0xe7d3fbc8,
   0x21e1cde6, 0xc33707d6, 0xf4d50d87, 0x455a14ed,
   0xa9e3e905, 0xfcefa3f8, 0x676f02d9, 0x8d2a4c8a,
   0xfffa3942, 0x8771f681, 0x6d9d6122, 0xfde5380c,
   0xa4beea44, 0x4bdecfa9, 0xf6bb4b60, 0xbebfbc70,
   0x289b7ec6, 0xeaa127fa, 0xd4ef3085, 0x04881d05,
   0xd9d4d039, 0xe6db99e5, 0x1fa27cf8, 0xc4ac5665,
   0xf4292244, 0x432aff97, 0xab9423a7, 0xfc93a039,
   0x655b59c3, 0x8f0ccc92, 0xffeff47d, 0x85845dd1,
   0x6fa87e4f, 0xfe2ce6e0, 0xa3014314, 0x4e0811a1,
   0xf7537e82, 0xbd3af235, 0x2ad7d2bb, 0xeb86d391]

def md5S : List Nat :=
  [7, 12, 17, 22, 7, 12, 17, 22, 7, 12, 17, 22, 7, 12, 17, 22,
   5, 9, 14, 20, 5, 9, 14, 20, 5, 9, 14, 20, 5, 9, 14, 20,
   4, 11, 16, 23, 4, 11, 16, 23, 4, 11, 16, 23, 4, 11, 16, 23,
   6, 10, 15, 21, 6, 10, 15, 21, 6, 10, 15, 21, 6, 10, 15, 21]

def md5F (i b c d : Nat) : Nat :=
  if i < 16 then (b &&& c) ||| ((b ^^^ mask32) &&& d)
  else if i < 32 then (d &&& b) ||| ((d ^^^ mask32) &&& c)
  else if i < 48 then b ^^^ c ^^^ d
  else c ^^^ (b ||| (d ^^^ mask32))

def md5G (i : Nat) : Nat :=
  if i < 16 then i
  else if i < 32 then (5 * i + 1) % 16
  else if i < 48 then (3 * i + 5) % 16
  else (7 * i) % 16

def md5Step (M : List Nat) (st : Nat × Nat × Nat × Nat) (i : Nat) :
    Nat × Nat × Nat × Nat :=
  match st with
  | (a, b, c, d) =>
    let f := (md5F i b c d + a + md5K.getD i 0 + M.getD (md5G i) 0) % m32
    (d, add32 b (rotl32 f (md5S.getD i 0)), b, c)

def md5Words (block : List Nat) : List Nat :=
  (List.range 16).map (fun j =>
    block.getD (4 * j) 0 + 256 * block.getD (4 * j + 1) 0 +
    65536 * block.getD (4 * j + 2) 0 + 16777216 * block.getD (4 * j + 3) 0)

def md5Block (st : Nat × Nat × Nat × Nat) (block : List Nat) :
    Nat × Nat × Nat × Nat :=
  let r := (List.range 64).foldl (md5Step (md5Words block)) st
  (add32 st.1 r.1, add32 st.2.1 r.2.1, add32 st.2.2.1 r.2.2.1,
   add32 st.2.2.2 r.2.2.2)

def md5Pad (msg : List Nat) : List Nat :=
  let len := msg.length
  let bitlen := (len * 8) % 18446744073709551616
  msg ++ [128] ++ List.replicate ((119 - len % 64) % 64) 0 ++
    (List.range 8).map (fun i => (bitlen >>> (8 * i)) % 256)

def blocks64Aux : Nat → List Nat → List (List Nat)
  | 0, _ => []
  | _, [] => []
  | fuel + 1, l => l.take 64 :: blocks64Aux fuel (l.drop 64)

def blocks64 (l : List Nat) : List (List Nat) := blocks64Aux l.length l

def wordLE (w : Nat) : List Nat :=
  [w % 256, w / 256 % 256, w / 65536 % 256, w / 16777216 % 256]

/-- The 16-byte MD5 digest of a byte list (hashlib.md5(msg).digest()). -/
def md5Bytes (msg : List Nat) : List Nat :=
  let st := (blocks64 (md5Pad msg)).foldl md5Block
    (0x67452301, 0xefcdab89, 0x98badcfe, 0x10325476)
  wordLE st.1 ++ wordLE st.2.1 ++ wordLE st.2.2.1 ++ wordLE st.2.2.2

/-! ### Hex encoding (hexdigest) and binascii.unhexlify -/

def hexChar (n : Nat) : Char :=
  if n < 10 then Char.ofNat (48 + n) else Char.ofNat (87 + n)

def byteHexChars (b : Nat) : List Char := [hexChar (b / 16), hexChar (b % 16)]

/-- Lowercase hex text of a byte list (hashlib's .hexdigest()). -/
def bytesToHex (bs : List Nat) : String := ⟨(bs.map byteHexChars).flatten⟩

def hexVal (c : Char) : Nat :=
  if c.toNat ≤ 57 then c.toNat - 48 else c.toNat - 87

def unhexChars : List Char → List Nat
  | c1 :: c2 :: rest => (16 * hexVal c1 + hexVal c2) :: unhexChars rest
  | _ => []

/-- binascii.unhexlify on (even-length, lowercase) hex text. -/
def unhexlify (s : String) : List Nat := unhexChars s.data

/-- ''.join(lst) for a list of strings. -/
def joinStrings (l : List String) : String := ⟨(l.map String.data).flatten⟩

/-! ### S3SyncUtility.md5: the fingerprint routine (s3sync.py lines 110-147)

`iter(lambda: f.read(part_size), b"")` reads the file in part_size-byte
chunks; `chunksAux` has a structural fuel argument (the content length
bounds the iteration count) so that it evaluates by kernel reduction. -/

def chunksAux (fuel partSize : Nat) (content : List Nat) : List (List Nat) :=
  match fuel with
  | 0 => []
  | fuel + 1 =>
    if partSize = 0 then []
    else if content.isEmpty then []
    else content.take partSize :: chunksAux fuel partSize (content.drop partSize)

def chunks (partSize : Nat) (content : List Nat) : List (List Nat) :=
  chunksAux content.length partSize content

namespace S3SyncUtility

/-- S3SyncUtility.md5.  The filesystem is an oracle: `fs fname` is the byte
content of the file at `fname`, or `none` when `os.path.isfile` is false.
If more than one chunk is read, the hex digests are joined, unhexlified and
rehashed exactly as the source does; with at most one chunk the last
computed digest (or the fresh digest for an empty read) is returned. -/
def md5 (fs : String → Option (List Nat)) (fname : String) (partSize : Nat) :
    String :=
  match fs fname with
  | some content =>
    let cks := chunks partSize content
    let md5Lst := cks.map (fun c => bytesToHex (md5Bytes c))
    let blockcount := cks.length
    if blockcount ≤ 1 then
      match cks.getLast? with
      | none => bytesToHex (md5Bytes [])
      | some c => bytesToHex (md5Bytes c)
    else
      bytesToHex (md5Bytes (unhexlify (joinStrings md5Lst))) ++ "-" ++
        toString blockcount
  | none => "d41d8cd98f00b204e9800998ecf8427e"

end S3SyncUtility

def fsC1 : String → Option (List Nat) :=
  fun n => if n = "f" then some [0, 1, 2] else none

def fsC7 : String → Option (List Nat) :=
  fun n =>
    if n = "empty" then some []
    else if n = "abc" then some [97, 98, 99] else none

/-! ### Key metadata records and association-list dictionaries

A Python (Ordered)Dict is modelled as an association list in insertion
order; its keys are unique in every state the program builds. -/

/-- The per-key metadata dictionary built by S3SyncUtility.dzip_meta: stat
fields as strings, the ETag slot, and the local path under the key
"local" (field `localPath` here, `local` being reserved in Lean). -/
structure KeyMeta where
  uid : String
  gid : String
  mode : String
  mtime : String
  size : String
  etag : String
  localPath : String
deriving DecidableEq

def lookupKey {α : Type} (l : List (String × α)) (k : String) : Option α :=
  match l.find? (fun p => p.1 == k) with
  | some p => some p.2
  | none => none

/-- v['ETag'].replace('"', ''): removes every double-quote character. -/
def stripQuotes (s : String) : String := ⟨s.data.filter (fun c => c ≠ '\"')⟩

/-! ### SmartS3Sync.compare_etag (s3sync.py lines 646-688) -/

/-- SmartS3Sync.compare_etag: walk `source` in order; a key whose quote-
stripped ETag matches the destination's is skipped, a key that is absent
from `destination` (KeyError / TypeError in the source) or whose stripped
ETags differ is appended to needs_sync.  The source returns None instead of
an empty dict; both are modelled as `[]`. -/
def compare_etag (source destination : List (String × KeyMeta)) :
    List (String × KeyMeta) :=
  match source with
  | [] => []
  | (k, v) :: rest =>
    match lookupKey destination k with
    | some w =>
      if stripQuotes v.etag = stripQuotes w.etag then compare_etag rest destination
      else (k, v) :: compare_etag rest destination
    | none => (k, v) :: compare_etag rest destination

/-- The membership condition of C3, as a Boolean predicate on one source
entry: the destination has no entry for the key, or the quote-stripped
fingerprints differ. -/
def needsSyncPred (destination : List (String × KeyMeta)) (p : String × KeyMeta) :
    Bool :=
  match lookupKey destination p.1 with
  | none => true
  | some w => decide ( stripQuotes p.2.etag ≠ stripQuotes w.etag)

def metaA : KeyMeta := ⟨"0", "0", "33204", "1", "2", "\"49f6\"", "/l/a.txt"⟩

def metaA' : KeyMeta := ⟨"0", "0", "33204", "1", "2", "49f6", "/l/a.txt"⟩

def metaB : KeyMeta := ⟨"0", "0", "33204", "1", "2", "aaaa", "/l/b.txt"⟩

def metaB' : KeyMeta := ⟨"0", "0", "33204", "1", "2", "bbbb", "/l/b.txt"⟩

/-! ### SmartS3Sync.check_localcache (s3sync.py lines 383-460)

The cache file is modelled by its load outcome: `absent` (no file at the
cache path), `corrupt` (gzip/json raises while reading — nothing in the
source or its callers catches that exception, modelled as `Except.error`),
or `loaded fdict`.  The fingerprint routine is a parameter `md5f`, so that
non-invocation is expressible as independence from it. -/

/-- One persisted cache record: local path maps to its ETag and mtime. -/
structure CacheRec where
  etag : String
  mtime : String
deriving DecidableEq

/-- Python dict update `d[key] = r`: replace in place, or append. -/
def updateRec (fdict : List (String × CacheRec)) (key : String) (r : CacheRec) :
    List (String × CacheRec) :=
  if (fdict.find? (fun p => p.1 == key)).isSome then
    fdict.map (fun p => if p.1 == key then (p.1, r) else p)
  else fdict ++ [(key, r)]

def setEtag (v : KeyMeta) (e : String) : KeyMeta :=
  ⟨v.uid, v.gid, v.mode, v.mtime, v.size, e, v.localPath⟩

/-- The per-entry loop of check_localcache when a cache file was loaded:
if a record for v['local'] exists and its mtime differs, recompute —
the source passes `k`, the dictionary key (an s3 key), to `util.md5`
here — and store; if the mtimes agree, copy the stored ETag; on KeyError
(no record) compute `util.md5(v['local'])` and store. -/
def cacheLoop (md5f : String → String) (fdict : List (String × CacheRec)) :
    List (String × KeyMeta) →
      List (String × KeyMeta) × List (String × CacheRec)
  | [] => ([], fdict)
  | (k, v) :: rest =>
    match lookupKey fdict v.localPath with
    | some r =>
      if r.mtime ≠ v.mtime then
        let newtag := md5f k
        let out := cacheLoop md5f (updateRec fdict v.localPath ⟨newtag, v.mtime⟩) rest
        ((k, setEtag v newtag) :: out.1, out.2)
      else
        let out := cacheLoop md5f fdict rest
        ((k, setEtag v r.etag) :: out.1, out.2)
    | none =>
      let newtag := md5f v.localPath
      let out := cacheLoop md5f (updateRec fdict v.localPath ⟨newtag, v.mtime⟩) rest
      ((k, setEtag v newtag) :: out.1, out.2)

/-- The no-cache-file branch: compute `util.md5(v['local'])` for every
entry and write a fresh cache document in iteration order. -/
def cacheInit (md5f : String → String) :
    List (String × KeyMeta) →
      List (String × KeyMeta) × List (String × CacheRec)
  | [] => ([], [])
  | (k, v) :: rest =>
    let newtag := md5f v.localPath
    let out := cacheInit md5f rest
    ((k, setEtag v newtag) :: out.1, (v.localPath, ⟨newtag, v.mtime⟩) :: out.2)

inductive CacheLoad where
  | absent : CacheLoad
  | corrupt : CacheLoad
  | loaded : List (String × CacheRec) → CacheLoad

deriving instance DecidableEq for Except

/-- SmartS3Sync.check_localcache: result is the updated keys dictionary and
the cache mapping written back, or `Except.error ()` when reading the cache
file raises (json.loads/gzip failure propagates out of the sync pass). -/
def check_localcache (md5f : String → String) (cache : CacheLoad)
    (keys : List (String × KeyMeta)) :
    Except Unit (List (String × KeyMeta) × List (String × CacheRec)) :=
  match cache with
  | CacheLoad.corrupt => Except.error ()
  | CacheLoad.absent => Except.ok (cacheInit md5f keys)
  | CacheLoad.loaded fdict => Except.ok (cacheLoop md5f fdict keys)

/-! ### Fixtures for the cache claims -/

def fsC2 : String → Option (List Nat) :=
  fun n => if n = "/l/a.txt" then some [104, 105] else none

def metaC2 : KeyMeta := ⟨"0", "0", "33204", "2", "2", "", "/l/a.txt"⟩

def metaC6 : KeyMeta := ⟨"0", "0", "33204", "5", "2", "", "/l/c.txt"⟩

/-! ### SmartS3Sync.parse_prefix (s3sync.py lines 463-482)

`temp.rsplit('/', 1)[0]` keeps everything before the last '/'.  The while
loop strictly shortens `temp`, so a fuel argument equal to the initial
length makes the recursion structural (fuel 0 is only reached with
`temp = []`, where the loop would stop anyway). -/

/-- Everything after the first '/' (or [] when no '/' occurs). -/
def dropToSlash : List Char → List Char
  | [] => []
  | c :: rest => if c = '/' then rest else dropToSlash rest

/-- temp.rsplit('/', 1)[0] for temp containing '/'. -/
def rsplit1 (l : List Char) : List Char := (dropToSlash l.reverse).reverse

def parse_prefix_aux {α : Type} : Nat → List Char → α → List (String × α)
  | 0, _, _ => []
  | fuel + 1, temp, meta =>
    if '/' ∈ temp then
      if rsplit1 temp = [] then parse_prefix_aux fuel (rsplit1 temp) meta
      else (⟨rsplit1 temp ++ ['/']⟩, meta) :: parse_prefix_aux fuel (rsplit1 temp) meta
    else []

/-- SmartS3Sync.parse_prefix: the ordered dict of ancestor prefix keys of
`path[len(bucket)+1:]`, each mapped to the parsed --metadata template, in
the order the loop inserts them. -/
def parse_prefix {α : Type} (path bucket : String) (metadir : α) :
    List (String × α) :=
  parse_prefix_aux (path.data.drop (bucket.length + 1)).length
    (path.data.drop (bucket.length + 1)) metadir

/-! ### SmartS3Sync.verify_keys (s3sync.py lines 544-594)

The S3 client is an oracle: `head k` is the metadata of an existing key
(`none` models the ClientError that head_object raises for a missing key),
`update k` tells whether copy_from (meta_update) succeeds, `put k` whether
put_object succeeds; `false` models a ClientError (permission denied).
`verify_keys` returns the trace of its actions, `VAct.exitRun` marking
sys.exit(). -/

structure S3Model where
  head : String → Option (List (String × String))
  update : String → Bool
  put : String → Bool

inductive VAct where
  | headOk : String → VAct
  | updAttempt : String → Bool → VAct
  | created : String → VAct
  | exitRun : String → VAct
deriving DecidableEq

def verify_keys (m : S3Model) :
    List (String × List (String × String)) → List VAct
  | [] => []
  | (k, v) :: rest =>
    match m.head k with
    | some metaresult =>
      VAct.headOk k ::
        ((if metaresult.length = 0 then [VAct.updAttempt k (m.update k)] else []) ++
          (if metaresult ≠ v then [VAct.updAttempt k (m.update k)] else []) ++
          verify_keys m rest)
    | none =>
      if m.put k then VAct.created k :: verify_keys m rest
      else [VAct.exitRun k]

/-! ### S3 client fixtures -/

def s3AllOk : S3Model :=
  ⟨fun _ => some [("mode", "509")], fun _ => true, fun _ => true⟩

def s3DeniedPut : S3Model := ⟨fun _ => none, fun _ => false, fun _ => false⟩

def s3DeniedUpd : S3Model :=
  ⟨fun _ => some [("stale", "1")], fun _ => false, fun _ => true⟩

/-! ### os.path.join (two components, posixpath semantics) -/

/-- os.path.join(a, b): b absolute replaces a; otherwise a separator is
inserted unless a is empty or already ends in '/'. -/
def joinPath (a b : String) : String :=
  if b.data.head? = some '/' then b
  else if a.data = [] then b
  else if a.data.getLast? = some '/' then ⟨a.data ++ b.data⟩
  else ⟨a.data ++ '/' :: b.data⟩

/-! ### DirectoryWalk (s3sync.py lines 177-233) -/

structure StatInfo where
  uid : Nat
  gid : Nat
  mode : Nat
  mtime : Nat
  size : Nat
deriving DecidableEq

/-- The filesystem as DirectoryWalk sees it: `sortedWalk local` is
`sorted(os.walk(local))` (empty when local is not a directory), `isfile` is
os.path.isfile, `stat` is os.stat. -/
structure FSModel where
  sortedWalk : String → List (String × List String × List String)
  isfile : String → Bool
  stat : String → StatInfo

/-- S3SyncUtility.dzip_meta with md5sum = False, as walk_dir calls it:
stat fields stringified, ETag left empty, the path stored under 'local'. -/
def dzip_meta (fs : FSModel) (key : String) : KeyMeta :=
  ⟨toString (fs.stat key).uid, toString (fs.stat key).gid,
   toString (fs.stat key).mode, toString (fs.stat key).mtime,
   toString (fs.stat key).size, "", key⟩

structure DirectoryWalk where
  root : List (String × KeyMeta)
  file : List (String × KeyMeta)
  isdir : Bool
deriving DecidableEq

/-- DirectoryWalk.walk_dir: iterate `sorted(os.walk(local))`, recording each
directory and each contained file with its stat metadata; when the walk is
empty and `local` is a regular file only the isdir flag is cleared. -/
def walk_dir (fs : FSModel) (localRoot : String) : DirectoryWalk :=
  let d := fs.sortedWalk localRoot
  { root := d.map (fun t => (t.1, dzip_meta fs t.1))
    file := (d.map (fun t => t.2.2.map (fun f =>
      (joinPath t.1 f, dzip_meta fs (joinPath t.1 f))))).flatten
    isdir := !(d.isEmpty && fs.isfile localRoot) }

/-! ### Fixture for the single-file walk -/

def fsC8 : FSModel :=
  ⟨fun _ => [], fun p => p == "/tmp/f.txt", fun _ => ⟨0, 0, 33204, 7, 2⟩⟩

/-! ### DirectoryWalk.toS3Keys (s3sync.py lines 208-233) and C9 -/

/-- DirectoryWalk.toS3Keys: each local path k becomes
os.path.join(s3path.split('/', 1)[1], k[len(local) + 1:] (+ '/')); for
directories the mapping of the walk root itself (which would collapse to
'/') is suppressed. -/
def toS3Keys (localRoot : String) (keys : List (String × KeyMeta))
    (s3path : String) (isdir : Bool) : List (String × KeyMeta) :=
  keys.filterMap (fun p =>
    if isdir then
      if joinPath ⟨dropToSlash s3path.data⟩
          ⟨p.1.data.drop (localRoot.length + 1) ++ ['/']⟩ = "/" then none
      else some (joinPath ⟨dropToSlash s3path.data⟩
        ⟨p.1.data.drop (localRoot.length + 1) ++ ['/']⟩, p.2)
    else
      some (joinPath ⟨dropToSlash s3path.data⟩
        ⟨p.1.data.drop (localRoot.length + 1)⟩, p.2))

/-- strip the destination prefix (with its separator) from a produced key. -/
def stripDest (destData : List Char) (key : String) : List Char :=
  if destData.getLast? = some '/' then key.data.drop destData.length
  else key.data.drop (destData.length + 1)

def metaC9 : KeyMeta := ⟨"0", "0", "509", "3", "4096", "", "/home/u/docs/sub"⟩

/-! ### SmartS3Sync.parse_meta (s3sync.py lines 486-524) and C10

The --metadata JSON argument is modelled pre-parsed, as an association
list (or none when absent); `setKey` is Python dict assignment.  The
source interleaves assignments to metadir and metafile under conditions
that always test metadir; the embedding groups the pairs step by step in
the same order.  The final json.dumps serialisation is omitted: the claims
are about the resulting templates. -/

def hasKey (obj : List (String × String)) (k : String) : Bool :=
  (obj.find? (fun p => p.1 == k)).isSome

/-- Python dict assignment obj[k] = v: replace in place, or append. -/
def setKey (obj : List (String × String)) (k v : String) :
    List (String × String) :=
  if hasKey obj k then obj.map (fun p => if p.1 == k then (p.1, v) else p)
  else obj ++ [(k, v)]

/-- The uid / gid / mtime steps of parse_meta, shared by both branches of
the mode step. -/
def parse_meta_tail (metadir metafile : List (String × String))
    (uidArg gidArg : Option String) (euid egid now : String) :
    List (String × String) × List (String × String) :=
  let d2 := if hasKey metadir "uid" = false then setKey metadir "uid" euid else metadir
  let f2 := if hasKey metadir "uid" = false then setKey metafile "uid" euid else metafile
  let d3 := if hasKey d2 "gid" = false then setKey d2 "gid" egid else d2
  let f3 := if hasKey d2 "gid" = false then setKey f2 "gid" egid else f2
  let d4 := match uidArg with | some u => setKey d3 "uid" u | none => d3
  let f4 := match uidArg with | some u => setKey f3 "uid" u | none => f3
  let d5 := match gidArg with | some g => setKey d4 "gid" g | none => d4
  let f5 := match gidArg with | some g => setKey f4 "gid" g | none => f4
  (setKey d5 "mtime" now, setKey f5 "mtime" now)

/-- SmartS3Sync.parse_meta: if 'mode' is absent from the supplied metadata
both templates get their per-role default (dirmode for the directory
template, filemode for the file template); then uid and gid defaults when
absent, the uid and gid command-line overrides, and the mtime stamp. -/
def parse_meta (meta : Option (List (String × String)))
    (dirmode filemode : String) (uidArg gidArg : Option String)
    (euid egid now : String) :
    List (String × String) × List (String × String) :=
  let metadir := match meta with | some m => m | none => []
  let metafile := match meta with | some m => m | none => []
  if hasKey metadir "mode" = false then
    parse_meta_tail (setKey metadir "mode" dirmode)
      (setKey metafile "mode" filemode) uidArg gidArg euid egid now
  else parse_meta_tail metadir metafile uidArg gidArg euid egid now

example : bytesToHex (md5Bytes []) = "d41d8cd98f00b204e9800998ecf8427e" := by
  decide

example :
    S3SyncUtility.md5 (fun n => if n = "f" then some [0, 1, 2] else none) "f" 2 =
      "190142ef7292b7cc71174af84a2521bb-2" := by
  decide

/-! ### Facts about hex digests and chunking -/

theorem wordLE_lt (w : Nat) : ∀ b ∈ wordLE w, b < 256 := by
  simp only [wordLE, List.mem_cons, List.not_mem_nil, or_false]
  rintro b (rfl | rfl | rfl | rfl) <;> omega

theorem md5Bytes_lt (msg : List Nat) : ∀ b ∈ md5Bytes msg, b < 256 := by
  intro b hb
  simp only [md5Bytes, List.mem_append] at hb
  rcases hb with ((h | h) | h) | h <;> exact wordLE_lt _ _ h

theorem hexVal_hexChar_fin : ∀ n : Fin 16, hexVal (hexChar n.val) = n.val := by
  decide

theorem unhexChars_digests (bs : List Nat) (rest : List Char)
    (h : ∀ b ∈ bs, b < 256) :
    unhexChars ((bs.map byteHexChars).flatten ++ rest) = bs ++ unhexChars rest := by
  induction bs with
  | nil => rfl
  | cons b bs ih =>
    have hb : b < 256 := h b (List.mem_cons_self ..)
    have h1 : hexVal (hexChar (b / 16)) = b / 16 :=
      hexVal_hexChar_fin ⟨b / 16, by omega⟩
    have h2 : hexVal (hexChar (b % 16)) = b % 16 :=
      hexVal_hexChar_fin ⟨b % 16, by omega⟩
    have hrest := ih (fun x hx => h x (List.mem_cons_of_mem _ hx))
    have hby : 16 * (b / 16) + b % 16 = b := by omega
    calc unhexChars (((b :: bs).map byteHexChars).flatten ++ rest)
        = (16 * hexVal (hexChar (b / 16)) + hexVal (hexChar (b % 16))) ::
            unhexChars ((bs.map byteHexChars).flatten ++ rest) := rfl
      _ = b :: (bs ++ unhexChars rest) := by rw [h1, h2, hby, hrest]
      _ = (b :: bs) ++ unhexChars rest := rfl

theorem unhexlify_join_digests (cks : List (List Nat)) :
    unhexlify (joinStrings (cks.map (fun c => bytesToHex (md5Bytes c)))) =
      (cks.map md5Bytes).flatten := by
  suffices h : ∀ l : List (List Nat),
      unhexChars (((l.map (fun c => bytesToHex (md5Bytes c))).map String.data).flatten) =
        (l.map md5Bytes).flatten by
    exact h cks
  intro l
  induction l with
  | nil => rfl
  | cons c l ih =>
    simp only [List.map_cons, List.flatten_cons]
    rw [show (bytesToHex (md5Bytes c)).data = ((md5Bytes c).map byteHexChars).flatten
        from rfl]
    rw [unhexChars_digests (md5Bytes c) _ (md5Bytes_lt c), ih]

theorem chunksAux_nil (fuel partSize : Nat) : chunksAux fuel partSize [] = [] := by
  cases fuel <;> simp [chunksAux]

theorem chunks_single (partSize : Nat) (content : List Nat) (hp : 0 < partSize)
    (hlen : content.length ≤ partSize) :
    chunks partSize content = if content = [] then [] else [content] := by
  cases content with
  | nil => rfl
  | cons b bs =>
    show chunksAux (bs.length + 1) partSize (b :: bs) = _
    rw [chunksAux, if_neg (by omega : ¬partSize = 0),
      if_neg (by simp : ¬((b :: bs).isEmpty = true)),
      List.take_of_length_le (by simpa using hlen),
      List.drop_eq_nil_of_le (by simpa using hlen), chunksAux_nil,
      if_neg (List.cons_ne_nil b bs)]

/-! ### C1 and C7: the fingerprint routine -/

theorem md5_eq_of_some (fs : String → Option (List Nat)) (fname : String)
    (partSize : Nat) (content : List Nat) (hfs : fs fname = some content) :
    S3SyncUtility.md5 fs fname partSize =
      if (chunks partSize content).length ≤ 1 then
        match (chunks partSize content).getLast? with
        | none => bytesToHex (md5Bytes [])
        | some c => bytesToHex (md5Bytes c)
      else
        bytesToHex (md5Bytes (unhexlify (joinStrings ((chunks partSize content).map
          (fun c => bytesToHex (md5Bytes c)))))) ++ "-" ++
          toString (chunks partSize content).length := by
  rw [S3SyncUtility.md5, hfs]

/-- C1: for an existing file whose content splits into more than one chunk of
partSize bytes, `S3SyncUtility.md5` returns the hex MD5 digest of the raw-byte
concatenation of the per-chunk MD5 digests, in chunk order, followed by "-"
and the decimal chunk count; in particular for exactly two chunks the result
is hex(md5(digest(chunk1) ++ digest(chunk2))) ++ "-2". -/
theorem md5_multipart (fs : String → Option (List Nat)) (fname : String)
    (content : List Nat) (partSize : Nat)
    (hfs : fs fname = some content) (h : 1 < (chunks partSize content).length) :
    S3SyncUtility.md5 fs fname partSize =
      bytesToHex (md5Bytes (((chunks partSize content).map md5Bytes).flatten)) ++
        "-" ++ toString (chunks partSize content).length ∧
    ∀ c1 c2, chunks partSize content = [c1, c2] →
      S3SyncUtility.md5 fs fname partSize =
        bytesToHex (md5Bytes (md5Bytes c1 ++ md5Bytes c2)) ++ "-2" := by
  have hmain : S3SyncUtility.md5 fs fname partSize =
      bytesToHex (md5Bytes (((chunks partSize content).map md5Bytes).flatten)) ++
        "-" ++ toString (chunks partSize content).length := by
    rw [S3SyncUtility.md5, hfs]
    simp only [if_neg (by omega : ¬(chunks partSize content).length ≤ 1)]
    rw [unhexlify_join_digests]
  refine ⟨hmain, fun c1 c2 hc => ?_⟩
  rw [hmain, hc]
  simp only [List.map_cons, List.map_nil, List.flatten_cons, List.flatten_nil,
    List.append_nil, List.length_cons, List.length_nil]
  rfl

/-- Witness for C1: a 3-byte file read with partSize 2 produces two chunks. -/
theorem md5_multipart_witness :
    S3SyncUtility.md5 fsC1 "f" 2 =
      bytesToHex (md5Bytes (((chunks 2 [0, 1, 2]).map md5Bytes).flatten)) ++
        "-" ++ toString (chunks 2 [0, 1, 2]).length :=
  (md5_multipart fsC1 "f" [0, 1, 2] 2 (by decide) (by decide)).1

/-- C7: for an existing file whose content fits in at most one chunk
(size ≤ partSize), `S3SyncUtility.md5` returns the plain hex MD5 digest of
the whole content, and for a 0-byte file it returns the MD5 of the empty
byte sequence, the constant d41d8cd98f00b204e9800998ecf8427e. -/
theorem md5_singlepart (fs : String → Option (List Nat)) (fname : String)
    (content : List Nat) (partSize : Nat)
    (hfs : fs fname = some content) (hp : 0 < partSize)
    (hlen : content.length ≤ partSize) :
    S3SyncUtility.md5 fs fname partSize = bytesToHex (md5Bytes content) ∧
    (content = [] →
      S3SyncUtility.md5 fs fname partSize = "d41d8cd98f00b204e9800998ecf8427e") := by
  have hck := chunks_single partSize content hp hlen
  have hmain : S3SyncUtility.md5 fs fname partSize = bytesToHex (md5Bytes content) := by
    rw [md5_eq_of_some fs fname partSize content hfs]
    by_cases hc : content = []
    · have hck2 : chunks partSize content = [] := by rw [hck, if_pos hc]
      rw [hck2, hc]
      rfl
    · have hck2 : chunks partSize content = [content] := by rw [hck, if_neg hc]
      rw [hck2]
      rfl
  refine ⟨hmain, fun hc => ?_⟩
  rw [hmain, hc]
  decide

/-- Witness for C7: a 0-byte file yields the well-known empty digest, and a
3-byte file (content "abc") at the default 8 MiB partSize yields the plain
content digest. -/
theorem md5_singlepart_witness :
    S3SyncUtility.md5 fsC7 "empty" 8388608 = "d41d8cd98f00b204e9800998ecf8427e" ∧
    S3SyncUtility.md5 fsC7 "abc" 8388608 = bytesToHex (md5Bytes [97, 98, 99]) :=
  ⟨(md5_singlepart fsC7 "empty" [] 8388608 (by decide) (by decide) (by decide)).2 rfl,
   (md5_singlepart fsC7 "abc" [97, 98, 99] 8388608 (by decide) (by decide)
     (by decide)).1⟩

/-! ### C3: compare_etag as an order-preserving filter -/

theorem lookupKey_self {α : Type} (l : List (String × α))
    (hnd : (l.map Prod.fst).Nodup) :
    ∀ p ∈ l, lookupKey l p.1 = some p.2 := by
  induction l with
  | nil => intro p hp; cases hp
  | cons q l ih =>
    simp only [List.map_cons, List.nodup_cons] at hnd
    intro p hp
    rcases List.mem_cons.mp hp with rfl | hp'
    · simp [lookupKey]
    · have hne : (q.1 == p.1) = false := by
        simp only [beq_eq_false_iff_ne, ne_eq]
        intro he
        exact hnd.1 (he ▸ List.mem_map_of_mem Prod.fst hp')
      have hrec := ih hnd.2 p hp'
      simpa [lookupKey, List.find?_cons, hne] using hrec

theorem compare_etag_filter (source destination : List (String × KeyMeta)) :
    compare_etag source destination = source.filter (needsSyncPred destination) := by
  induction source with
  | nil => rfl
  | cons p rest ih =>
    obtain ⟨k, v⟩ := p
    rw [compare_etag, List.filter_cons]
    cases hl : lookupKey destination k with
    | none =>
      simp only [hl]
      rw [ih, if_pos (by simp [needsSyncPred, hl])]
    | some w =>
      simp only [hl]
      by_cases he : stripQuotes v.etag = stripQuotes w.etag
      · rw [if_pos he, ih, if_neg (by simp [needsSyncPred, hl, he])]
      · rw [if_neg he, ih, if_pos (by simp [needsSyncPred, hl, he])]

theorem compare_etag_matched (src dest : List (String × KeyMeta))
    (h : ∀ p ∈ src, ∃ w, lookupKey dest p.1 = some w ∧
      stripQuotes p.2.etag = stripQuotes w.etag) :
    compare_etag src dest = [] := by
  induction src with
  | nil => rfl
  | cons p rest ih =>
    obtain ⟨k, v⟩ := p
    obtain ⟨w, hw, he⟩ := h (k, v) (List.mem_cons_self ..)
    rw [compare_etag]
    simp only [hw, if_pos he]
    exact ih (fun q hq => h q (List.mem_cons_of_mem _ hq))

/-- C3: compare_etag returns exactly the source entries whose key is absent
from the destination or whose quote-stripped fingerprints differ, with their
source values, as an order-preserving filter of source; and the diff of a
mapping (with unique keys, as every Python dict has) against itself is
empty. -/
theorem compare_etag_spec (source destination : List (String × KeyMeta)) :
    compare_etag source destination = source.filter (needsSyncPred destination) ∧
    ((source.map Prod.fst).Nodup → compare_etag source source = []) :=
  ⟨compare_etag_filter source destination, fun hnd =>
    compare_etag_matched source source (fun p hp =>
      ⟨p.2, lookupKey_self source hnd p hp, rfl⟩)⟩

/-- Witness for C3: a destination whose first fingerprint matches up to
quoting and whose second differs keeps exactly the differing key, and the
self-diff of a two-key mapping is empty. -/
theorem compare_etag_spec_witness :
    compare_etag [("a", metaA), ("b", metaB)] [("a", metaA'), ("b", metaB')] =
      List.filter (needsSyncPred [("a", metaA'), ("b", metaB')])
        [("a", metaA), ("b", metaB)] ∧
    compare_etag [("a", metaA), ("b", metaB)] [("a", metaA), ("b", metaB)] = [] :=
  ⟨(compare_etag_spec [("a", metaA), ("b", metaB)] [("a", metaA'), ("b", metaB')]).1,
   (compare_etag_spec [("a", metaA), ("b", metaB)] [("a", metaA), ("b", metaB)]).2
     (by decide)⟩


/-! ### C2: which path the cache recompute hashes -/

/-- C2 fails on the code: for an entry whose cached mtime ("1") differs from
the current mtime ("2"), check_localcache recomputes the fingerprint by
hashing `k`, the s3 key "docs/a.txt" — not the entry's local file path
"/l/a.txt" — so with the real fingerprint routine over a filesystem holding
only /l/a.txt (content "hi") it stores the nonexistent-path sentinel
d41d8cd98f00b204e9800998ecf8427e, while md5 of the local path is the
genuine digest 49f68a5c8493ec2c0bf489821c21fc3b. -/
theorem check_localcache_stale_mtime_hashes_key :
    check_localcache (fun p => S3SyncUtility.md5 fsC2 p 8388608)
      (CacheLoad.loaded [("/l/a.txt", ⟨"OLD", "1"⟩)])
      [("docs/a.txt", metaC2)] =
      Except.ok ([("docs/a.txt", setEtag metaC2 "d41d8cd98f00b204e9800998ecf8427e")],
        [("/l/a.txt", ⟨"d41d8cd98f00b204e9800998ecf8427e", "2"⟩)]) ∧
    S3SyncUtility.md5 fsC2 "/l/a.txt" 8388608 = "49f68a5c8493ec2c0bf489821c21fc3b" := by
  decide

/-! ### C6: corrupt cache content aborts the pass -/

/-- Counterexample for C6: with a corrupt cache file and one entry, the
pass does not fall back to recomputing every fingerprint — the load error
propagates (`isOk = false`), refuting "treats every entry as a cache miss
instead of aborting". -/
theorem check_localcache_corrupt_cex :
    check_localcache (fun s => s) CacheLoad.corrupt [("docs/c.txt", metaC6)] =
      Except.error () ∧
    (check_localcache (fun s => s) CacheLoad.corrupt [("docs/c.txt", metaC6)]).isOk
      = false := by
  decide

theorem cacheInit_fst (md5f : String → String) (keys : List (String × KeyMeta)) :
    (cacheInit md5f keys).1 =
      keys.map (fun p => (p.1, setEtag p.2 (md5f p.2.localPath))) := by
  induction keys with
  | nil => rfl
  | cons p rest ih =>
    obtain ⟨k, v⟩ := p
    simp only [cacheInit, List.map_cons, ih]

/-- C6 amended: a corrupt (unparsable) cache file makes check_localcache
fail — the json/gzip exception propagates and the sync pass aborts, with no
fallback; it is an *absent* cache file that is handled by recomputing every
entry's fingerprint from its local path. -/
theorem check_localcache_corrupt_aborts (md5f : String → String)
    (keys : List (String × KeyMeta)) :
    check_localcache md5f CacheLoad.corrupt keys = Except.error () ∧
    (∀ out, check_localcache md5f CacheLoad.absent keys = Except.ok out →
      out.1 = keys.map (fun p => (p.1, setEtag p.2 (md5f p.2.localPath)))) := by
  refine ⟨rfl, fun out hout => ?_⟩
  have : out = cacheInit md5f keys := by
    simpa [check_localcache] using hout.symm
  rw [this, cacheInit_fst]

/-- Witness for C6 (amended): one concrete entry, a corrupt load aborts and
an absent cache recomputes from the local path. -/
theorem check_localcache_corrupt_aborts_witness :
    check_localcache (fun s => s ++ "!") CacheLoad.corrupt [("docs/c.txt", metaC6)] =
      Except.error () ∧
    (cacheInit (fun s => s ++ "!") [("docs/c.txt", metaC6)]).1 =
      [("docs/c.txt", setEtag metaC6 "/l/c.txt!")] :=
  ⟨(check_localcache_corrupt_aborts (fun s => s ++ "!") [("docs/c.txt", metaC6)]).1,
   by
    have h := (check_localcache_corrupt_aborts (fun s => s ++ "!")
      [("docs/c.txt", metaC6)]).2 (cacheInit (fun s => s ++ "!") [("docs/c.txt", metaC6)])
      rfl
    simpa using h⟩

/-! ### C4: the order of ancestor prefix keys -/

theorem dropToSlash_spec (m : List Char) (h : '/' ∈ m) :
    ∃ pre, m = pre ++ '/' :: dropToSlash m ∧ '/' ∉ pre := by
  induction m with
  | nil => cases h
  | cons c rest ih =>
    by_cases hc : c = '/'
    · subst hc
      exact ⟨[], by simp [dropToSlash], by simp⟩
    · have hrest : '/' ∈ rest := by
        rcases List.mem_cons.mp h with h1 | h1
        · exact absurd h1.symm hc
        · exact h1
      obtain ⟨pre, hpre, hnot⟩ := ih hrest
      refine ⟨c :: pre, ?_, ?_⟩
      · simp only [dropToSlash, if_neg hc, List.cons_append]
        rw [← hpre]
      · intro hmem
        rcases List.mem_cons.mp hmem with h1 | h1
        · exact hc h1.symm
        · exact hnot h1

theorem rsplit1_spec (l : List Char) (h : '/' ∈ l) :
    ∃ t, l = rsplit1 l ++ '/' :: t ∧ '/' ∉ t := by
  obtain ⟨pre, hpre, hnot⟩ := dropToSlash_spec l.reverse (by simpa using h)
  refine ⟨pre.reverse, ?_, by simpa using hnot⟩
  have h2 := congrArg List.reverse hpre
  simp only [List.reverse_reverse, List.reverse_append, List.reverse_cons] at h2
  conv_lhs => rw [h2]
  simp [rsplit1]

theorem parse_prefix_aux_mem {α : Type} (fuel : Nat) (temp : List Char) (meta : α) :
    ∀ p ∈ parse_prefix_aux fuel temp meta,
      ∃ t, t ≠ [] ∧ p.1.data ++ t = temp ++ ['/'] := by
  induction fuel generalizing temp with
  | zero => intro p hp; cases hp
  | succ fuel ih =>
    intro p hp
    rw [parse_prefix_aux] at hp
    by_cases hc : '/' ∈ temp
    · rw [if_pos hc] at hp
      obtain ⟨t, htemp, _⟩ := rsplit1_spec temp hc
      have hsplit : temp ++ ['/'] = (rsplit1 temp ++ ['/']) ++ (t ++ ['/']) := by
        conv_lhs => rw [htemp]
        simp
      by_cases h2 : rsplit1 temp = []
      · rw [if_pos h2] at hp
        obtain ⟨t', ht'ne, ht'⟩ := ih (rsplit1 temp) p hp
        exact ⟨t' ++ (t ++ ['/']), by simp [ht'ne], by
          rw [← List.append_assoc, ht', ← hsplit]⟩
      · rw [if_neg h2] at hp
        rcases List.mem_cons.mp hp with rfl | hp'
        · exact ⟨t ++ ['/'], by simp, by rw [hsplit]⟩
        · obtain ⟨t', ht'ne, ht'⟩ := ih (rsplit1 temp) p hp'
          exact ⟨t' ++ (t ++ ['/']), by simp [ht'ne], by
            rw [← List.append_assoc, ht', ← hsplit]⟩
    · rw [if_neg hc] at hp
      cases hp

theorem parse_prefix_aux_chain {α : Type} (fuel : Nat) (temp : List Char)
    (meta : α) :
    List.Chain' (fun a b : String × α => ∃ t, t ≠ [] ∧ b.1.data ++ t = a.1.data)
      (parse_prefix_aux fuel temp meta) := by
  induction fuel generalizing temp with
  | zero => exact List.chain'_nil
  | succ fuel ih =>
    rw [parse_prefix_aux]
    by_cases hc : '/' ∈ temp
    · rw [if_pos hc]
      by_cases h2 : rsplit1 temp = []
      · rw [if_pos h2]; exact ih _
      · rw [if_neg h2]
        refine List.chain'_cons'.mpr ⟨?_, ih _⟩
        intro y hy
        have hmem : y ∈ parse_prefix_aux fuel (rsplit1 temp) meta :=
          List.mem_of_mem_head? hy
        obtain ⟨t, htne, ht⟩ := parse_prefix_aux_mem fuel (rsplit1 temp) meta y hmem
        exact ⟨t, htne, ht⟩
    · rw [if_neg hc]; exact List.chain'_nil

/-- Counterexample for C4: for the destination path bucket/a/b/x.txt the
derived prefix keys come out deepest first — "a/b/" is produced, and then
verified by verify_keys, before "a/" — refuting the claimed
shallowest-first order ("a/" before "a/b/"). -/
theorem parse_prefix_order_cex :
    ( parse_prefix "bucket/a/b/x.txt" "bucket" [("mode", "509")]).map Prod.fst =
      ["a/b/", "a/"] ∧
    verify_keys s3AllOk ( parse_prefix "bucket/a/b/x.txt" "bucket" [("mode", "509")]) =
      [VAct.headOk "a/b/", VAct.headOk "a/"] := by
  decide

/-- C4 amended: the derived ancestor prefix keys are produced, and verified
in that list order, deepest first: every later key is a strict prefix
(a shallower ancestor, with its trailing '/') of the one before it, so the
key list is strictly decreasing in depth and length. -/
theorem parse_prefix_deepest_first {α : Type} (path bucket : String)
    (metadir : α) :
    List.Chain' (fun a b => ∃ t, t ≠ [] ∧ b.1.data ++ t = a.1.data)
      ( parse_prefix path bucket metadir) ∧
    List.Chain' (fun a b => b.1.length < a.1.length)
      ( parse_prefix path bucket metadir) := by
  have h := parse_prefix_aux_chain (path.data.drop (bucket.length + 1)).length
    (path.data.drop (bucket.length + 1)) metadir
  refine ⟨h, List.Chain'.imp ?_ h⟩
  rintro a b ⟨t, htne, ht⟩
  have hlen : b.1.data.length + t.length = a.1.data.length := by
    rw [← List.length_append, ht]
  have hpos : 0 < t.length := List.length_pos.mpr htne
  show b.1.data.length < a.1.data.length
  omega

/-! ### C5: permission errors in verify_keys -/

/-- C5: a ClientError from put_object while creating a missing prefix key
ends the whole run (sys.exit: the trace stops at exitRun and no later key
is processed), whereas a ClientError from meta_update on an existing key
whose metadata differs is logged and the remaining keys are processed. -/
theorem verify_keys_permission_errors (m : S3Model) (k : String)
    (v : List (String × String)) (rest : List (String × List (String × String))) :
    (m.head k = none → m.put k = false →
      verify_keys m ((k, v) :: rest) = [VAct.exitRun k]) ∧
    (∀ md, m.head k = some md → md ≠ [] → md ≠ v → m.update k = false →
      verify_keys m ((k, v) :: rest) =
        VAct.headOk k :: VAct.updAttempt k false :: verify_keys m rest) := by
  constructor
  · intro hh hp
    rw [verify_keys]
    simp only [hh, hp]
    rfl
  · intro md hh hne hnev hu
    rw [verify_keys]
    simp only [hh, hu]
    rw [if_neg (by simpa using hne), if_pos hnev]
    rfl

/-- Witness for C5: with put_object denied the run stops at the first key
and the second key "a/b/" is never processed; with meta_update denied on an
existing key the failed attempt is recorded and the trace continues with
the remaining keys. -/
theorem verify_keys_permission_errors_witness :
    verify_keys s3DeniedPut [("a/", [("mode", "509")]), ("a/b/", [("mode", "509")])] =
      [VAct.exitRun "a/"] ∧
    verify_keys s3DeniedUpd [("a/", [("mode", "509")]), ("a/b/", [("mode", "509")])] =
      VAct.headOk "a/" :: VAct.updAttempt "a/" false ::
        verify_keys s3DeniedUpd [("a/b/", [("mode", "509")])] :=
  ⟨(verify_keys_permission_errors s3DeniedPut "a/" [("mode", "509")]
      [("a/b/", [("mode", "509")])]).1 rfl rfl,
   (verify_keys_permission_errors s3DeniedUpd "a/" [("mode", "509")]
      [("a/b/", [("mode", "509")])]).2 [("stale", "1")] rfl (by decide) (by decide) rfl⟩

theorem drop_len_append_eq {α : Type} (a b : List α) : (a ++ b).drop a.length = b := by
  induction a with
  | nil => rfl
  | cons x a ih => simp [ih]

/-! ### C8: a file as walk root -/

/-- Counterexample for C8: for a root that is a regular file, os.walk yields
nothing, so the walk produces ZERO file entries — not "exactly one file
Entry" as claimed; only the isdir flag records single-file mode. -/
theorem walk_dir_file_root_cex :
    (walk_dir fsC8 "/tmp/f.txt").file.length = 0 ∧
    (walk_dir fsC8 "/tmp/f.txt").root = [] ∧
    (walk_dir fsC8 "/tmp/f.txt").isdir = false := by
  decide

/-- C8 amended: for a root path that is a regular file (empty walk,
isfile true) the walk yields EMPTY directory and file mappings and reports
isDirectory = false for the whole operation; the one file Entry of
single-file mode is constructed by the sync orchestrator, not by the walk. -/
theorem walk_dir_file_root (fs : FSModel) (localRoot : String)
    (hw : fs.sortedWalk localRoot = []) (hf : fs.isfile localRoot = true) :
    walk_dir fs localRoot = ⟨[], [], false⟩ := by
  simp [walk_dir, hw, hf]

/-- Witness for C8 (amended), at the concrete single-file filesystem. -/
theorem walk_dir_file_root_witness :
    walk_dir fsC8 "/tmp/f.txt" = ⟨[], [], false⟩ :=
  walk_dir_file_root fsC8 "/tmp/f.txt" rfl (by decide)

/-! ### C9: the key-mapping round trip -/

theorem dropToSlash_no_slash_append (pre rest : List Char) (h : '/' ∉ pre) :
    dropToSlash (pre ++ '/' :: rest) = rest := by
  induction pre with
  | nil => simp [dropToSlash]
  | cons c pre ih =>
    have hc : ¬c = '/' := fun he => h (he ▸ List.mem_cons_self ..)
    simp only [List.cons_append, dropToSlash, if_neg hc]
    exact ih (fun hm => h (List.mem_cons_of_mem _ hm))

theorem joinPath_data (destData relish : List Char) (hd : destData ≠ [])
    (hh : relish.head? ≠ some '/') :
    (joinPath ⟨destData⟩ ⟨relish⟩).data =
      if destData.getLast? = some '/' then destData ++ relish
      else destData ++ '/' :: relish := by
  rw [joinPath]
  rw [if_neg (by simpa using hh), if_neg (by simpa using hd)]
  by_cases hl : destData.getLast? = some '/'
  · rw [if_pos hl, if_pos hl]
  · rw [if_neg hl, if_neg hl]

theorem stripDest_joinPath (destData relish : List Char) (hd : destData ≠ [])
    (hh : relish.head? ≠ some '/') :
    stripDest destData (joinPath ⟨destData⟩ ⟨relish⟩) = relish := by
  rw [stripDest]
  by_cases hl : destData.getLast? = some '/'
  · rw [if_pos hl, joinPath_data _ _ hd hh, if_pos hl]
    exact drop_len_append_eq _ _
  · rw [if_neg hl, joinPath_data _ _ hd hh, if_neg hl]
    have he : destData ++ '/' :: relish = (destData ++ ['/']) ++ relish := by simp
    have hlen : destData.length + 1 = (destData ++ ['/']).length := by simp
    rw [he, hlen]
    exact drop_len_append_eq _ _

theorem joinPath_ne_slash (destData relish : List Char) (hd : destData ≠ [])
    (hh : relish.head? ≠ some '/') (hr : relish ≠ []) :
    joinPath ⟨destData⟩ ⟨relish⟩ ≠ "/" := by
  intro hcontra
  have hdata := congrArg String.data hcontra
  rw [joinPath_data _ _ hd hh] at hdata
  have hlen := congrArg List.length hdata
  have hd1 : 0 < destData.length := List.length_pos.mpr hd
  have hr1 : 0 < relish.length := List.length_pos.mpr hr
  have hslash : ("/" : String).data.length = 1 := by decide
  by_cases hl : destData.getLast? = some '/'
  · rw [if_pos hl] at hlen
    simp only [List.length_append, hslash] at hlen
    omega
  · rw [if_neg hl] at hlen
    simp only [List.length_append, List.length_cons, hslash] at hlen
    omega

theorem head?_append_left {α : Type} (l l' : List α) (h : l ≠ []) :
    (l ++ l').head? = l.head? := by
  cases l with
  | nil => exact absurd rfl h
  | cons x t => rfl

theorem toS3Keys_cons_file (localRoot : String) (p : String × KeyMeta)
    (rest : List (String × KeyMeta)) (s3path : String) :
    toS3Keys localRoot (p :: rest) s3path false =
      (joinPath ⟨dropToSlash s3path.data⟩ ⟨p.1.data.drop (localRoot.length + 1)⟩, p.2)
        :: toS3Keys localRoot rest s3path false := rfl

theorem toS3Keys_cons_dir (localRoot : String) (p : String × KeyMeta)
    (rest : List (String × KeyMeta)) (s3path : String)
    (hne : joinPath ⟨dropToSlash s3path.data⟩
      ⟨p.1.data.drop (localRoot.length + 1) ++ ['/']⟩ ≠ "/") :
    toS3Keys localRoot (p :: rest) s3path true =
      (joinPath ⟨dropToSlash s3path.data⟩
        ⟨p.1.data.drop (localRoot.length + 1) ++ ['/']⟩, p.2)
        :: toS3Keys localRoot rest s3path true := by
  rw [toS3Keys, List.filterMap_cons]
  simp only [if_neg hne]
  rfl

/-- C9: for every walked entry whose local path is the walk root followed by
'/' and a nonempty relative path, mapping to a remote key under the
destination prefix (s3path after the bucket name) and then stripping that
prefix recovers the relative path exactly — with a trailing '/' appended
for directory entries — and the mapping is a pure order-preserving
per-entry function of its inputs (Forall₂ relates input and output
entrywise, in order, carrying each source value unchanged). -/
theorem toS3Keys_roundtrip (localRoot : String) (keys : List (String × KeyMeta))
    (s3path : String) (isdir : Bool) (bucketHead destData : List Char)
    (hs3 : s3path.data = bucketHead ++ '/' :: destData)
    (hb : '/' ∉ bucketHead) (hd : destData ≠ [])
    (hkeys : ∀ p ∈ keys, ∃ rel, p.1.data = localRoot.data ++ '/' :: rel ∧
      rel ≠ [] ∧ rel.head? ≠ some '/') :
    List.Forall₂ (fun p q =>
      q.2 = p.2 ∧
      stripDest destData q.1 =
        p.1.data.drop (localRoot.length + 1) ++ (if isdir then ['/'] else []))
      keys (toS3Keys localRoot keys s3path isdir) := by
  have hdest : dropToSlash s3path.data = destData := by
    rw [hs3]
    exact dropToSlash_no_slash_append bucketHead destData hb
  revert hkeys
  induction keys with
  | nil => intro _; exact List.Forall₂.nil
  | cons p rest ih =>
    intro hkeys
    obtain ⟨rel, hrel, hrne, hrhead⟩ := hkeys p (List.mem_cons_self ..)
    have hdrop : p.1.data.drop (localRoot.length + 1) = rel := by
      rw [hrel]
      have he : localRoot.data ++ '/' :: rel = (localRoot.data ++ ['/']) ++ rel := by
        simp
      have hlen : localRoot.length + 1 = (localRoot.data ++ ['/']).length := by
        have h0 : localRoot.length = localRoot.data.length := rfl
        rw [h0, List.length_append]
        simp
      rw [he, hlen]
      exact drop_len_append_eq _ _
    have ihrest := ih (fun q hq => hkeys q (List.mem_cons_of_mem _ hq))
    cases isdir with
    | false =>
      rw [toS3Keys_cons_file]
      refine List.Forall₂.cons ⟨rfl, ?_⟩ ihrest
      rw [hdest, hdrop, stripDest_joinPath destData rel hd hrhead]
      simp
    | true =>
      have hh2 : (rel ++ ['/']).head? ≠ some '/' := by
        rw [head?_append_left rel _ hrne]
        exact hrhead
      have hne2 : rel ++ ['/'] ≠ [] := by simp
      have hkey : joinPath ⟨dropToSlash s3path.data⟩
          ⟨p.1.data.drop (localRoot.length + 1) ++ ['/']⟩ ≠ "/" := by
        rw [hdest, hdrop]
        exact joinPath_ne_slash destData (rel ++ ['/']) hd hh2 hne2
      rw [toS3Keys_cons_dir localRoot p rest s3path hkey]
      refine List.Forall₂.cons ⟨rfl, ?_⟩ ihrest
      rw [hdest, hdrop, stripDest_joinPath destData (rel ++ ['/']) hd hh2]
      simp

/-- Witness for C9: the directory entry /home/u/docs/sub under walk root
/home/u/docs, mapped into destination bucket/home/docs/. -/
theorem toS3Keys_roundtrip_witness :
    List.Forall₂ (fun p q =>
      q.2 = p.2 ∧
      stripDest "home/docs/".data q.1 =
        p.1.data.drop ("/home/u/docs".length + 1) ++
          (if true then ['/'] else []))
      [("/home/u/docs/sub", metaC9)]
      (toS3Keys "/home/u/docs" [("/home/u/docs/sub", metaC9)]
        "bucket/home/docs/" true) :=
  toS3Keys_roundtrip "/home/u/docs" [("/home/u/docs/sub", metaC9)]
    "bucket/home/docs/" true "bucket".data "home/docs/".data (by decide)
    (by decide) (by decide)
    (fun p hp => by
      simp only [List.mem_singleton] at hp
      subst hp
      exact ⟨"sub".data, by decide, by decide, by decide⟩)

/-! ### C10: parse_meta mode handling -/

theorem lookupKey_cons {α : Type} (q : String × α) (rest : List (String × α))
    (k : String) :
    lookupKey (q :: rest) k = if q.1 == k then some q.2 else lookupKey rest k := by
  by_cases h : (q.1 == k) = true
  · simp [lookupKey, List.find?_cons, h]
  · have h' : (q.1 == k) = false := by simpa using h
    simp [lookupKey, List.find?_cons, h']

theorem lookupKey_map_set_other (obj : List (String × String)) (k v k' : String)
    (h : ¬k' = k) :
    lookupKey (obj.map (fun p => if p.1 == k then (p.1, v) else p)) k' =
      lookupKey obj k' := by
  induction obj with
  | nil => rfl
  | cons q rest ih =>
    have hfq1 : (if q.1 == k then (q.1, v) else q).1 = q.1 := by
      by_cases hc : (q.1 == k) = true
      · rw [if_pos hc]
      · rw [if_neg hc]
    rw [List.map_cons, lookupKey_cons, lookupKey_cons, hfq1]
    by_cases hq : (q.1 == k') = true
    · have hq1 : q.1 = k' := by simpa using hq
      have hqk : (q.1 == k) = false := by
        simp only [beq_eq_false_iff_ne, ne_eq]
        intro he
        exact h (hq1.symm.trans he)
      rw [if_pos hq, if_pos hq, if_neg (by simp [hqk])]
    · have hq' : (q.1 == k') = false := by simpa using hq
      rw [if_neg (by simp [hq']), if_neg (by simp [hq']), ih]

theorem lookupKey_map_set_same (obj : List (String × String)) (k v : String)
    (h : hasKey obj k = true) :
    lookupKey (obj.map (fun p => if p.1 == k then (p.1, v) else p)) k = some v := by
  induction obj with
  | nil => simp [hasKey] at h
  | cons q rest ih =>
    by_cases hq : (q.1 == k) = true
    · rw [List.map_cons, if_pos hq, lookupKey_cons]
      simp [hq]
    · have hq' : (q.1 == k) = false := by simpa using hq
      have hrest : hasKey rest k = true := by
        simpa [hasKey, List.find?_cons, hq'] using h
      rw [List.map_cons, if_neg hq, lookupKey_cons, if_neg (by simp [hq']),
        ih hrest]

theorem lookupKey_append_not_found (obj : List (String × String)) (k v : String)
    (h : hasKey obj k = false) :
    lookupKey (obj ++ [(k, v)]) k = some v := by
  induction obj with
  | nil => simp [lookupKey_cons]
  | cons q rest ih =>
    have hq : (q.1 == k) = false := by
      by_contra hc
      have hc' : (q.1 == k) = true := by simpa using hc
      simp [hasKey, List.find?_cons, hc'] at h
    have hrest : hasKey rest k = false := by
      simpa [hasKey, List.find?_cons, hq] using h
    rw [List.cons_append, lookupKey_cons, if_neg (by simp [hq])]
    exact ih hrest

theorem lookupKey_append_other (obj : List (String × String)) (k v k' : String)
    (h : ¬k' = k) :
    lookupKey (obj ++ [(k, v)]) k' = lookupKey obj k' := by
  induction obj with
  | nil =>
    have hk : (k == k') = false := by
      simp only [beq_eq_false_iff_ne, ne_eq]
      intro he
      exact h he.symm
    simp [lookupKey_cons, hk, lookupKey]
  | cons q rest ih =>
    rw [List.cons_append, lookupKey_cons, lookupKey_cons, ih]

theorem lookupKey_setKey_same (obj : List (String × String)) (k v : String) :
    lookupKey (setKey obj k v) k = some v := by
  rw [setKey]
  by_cases h : hasKey obj k = true
  · rw [if_pos h]
    exact lookupKey_map_set_same obj k v h
  · have h' : hasKey obj k = false := by simpa using h
    rw [if_neg (by simp [h'])]
    exact lookupKey_append_not_found obj k v h'

theorem lookupKey_setKey_other (obj : List (String × String)) (k v k' : String)
    (h : ¬k' = k) :
    lookupKey (setKey obj k v) k' = lookupKey obj k' := by
  rw [setKey]
  by_cases hk : hasKey obj k
  · rw [if_pos hk]
    exact lookupKey_map_set_other obj k v k' h
  · rw [if_neg hk]
    exact lookupKey_append_other obj k v k' h

theorem hasKey_of_lookup (obj : List (String × String)) (k w : String)
    (h : lookupKey obj k = some w) : hasKey obj k = true := by
  cases hf : obj.find? (fun p => p.1 == k) with
  | none => simp [lookupKey, hf] at h
  | some p => simp [hasKey, hf]

theorem lookup_other_if (c : Prop) [Decidable c] (x : List (String × String))
    (k v k' : String) (h : ¬k' = k) :
    lookupKey (if c then setKey x k v else x) k' = lookupKey x k' := by
  by_cases hc : c
  · rw [if_pos hc, lookupKey_setKey_other x k v k' h]
  · rw [if_neg hc]

theorem lookup_other_match (o : Option String) (x : List (String × String))
    (k k' : String) (h : ¬k' = k) :
    lookupKey (match o with | some u => setKey x k u | none => x) k' =
      lookupKey x k' := by
  cases o with
  | none => rfl
  | some u => exact lookupKey_setKey_other x k u k' h

theorem parse_meta_tail_mode (d f : List (String × String))
    (uidArg gidArg : Option String) (euid egid now : String) :
    lookupKey (parse_meta_tail d f uidArg gidArg euid egid now).1 "mode" =
      lookupKey d "mode" ∧
    lookupKey (parse_meta_tail d f uidArg gidArg euid egid now).2 "mode" =
      lookupKey f "mode" := by
  unfold parse_meta_tail
  constructor
  · rw [lookupKey_setKey_other _ "mtime" now "mode" (by decide),
      lookup_other_match gidArg _ "gid" "mode" (by decide),
      lookup_other_match uidArg _ "uid" "mode" (by decide),
      lookup_other_if _ _ "gid" egid "mode" (by decide),
      lookup_other_if _ _ "uid" euid "mode" (by decide)]
  · rw [lookupKey_setKey_other _ "mtime" now "mode" (by decide),
      lookup_other_match gidArg _ "gid" "mode" (by decide),
      lookup_other_match uidArg _ "uid" "mode" (by decide),
      lookup_other_if _ _ "gid" egid "mode" (by decide),
      lookup_other_if _ _ "uid" euid "mode" (by decide)]

/-- C10: when the user metadata contains 'mode', parse_meta keeps that single
value as the mode of BOTH the directory and the file template and neither
per-role default (dirmode / filemode) is applied to either; the per-role
defaults take effect exactly when 'mode' is absent — then the directory
template gets dirmode and the file template gets filemode. -/
theorem parse_meta_mode (m : List (String × String))
    (mval dirmode filemode : String) (uidArg gidArg : Option String)
    (euid egid now : String) :
    (lookupKey m "mode" = some mval →
      lookupKey ( parse_meta (some m) dirmode filemode uidArg gidArg
        euid egid now).1 "mode" = some mval ∧
      lookupKey ( parse_meta (some m) dirmode filemode uidArg gidArg
        euid egid now).2 "mode" = some mval) ∧
    (hasKey m "mode" = false →
      lookupKey ( parse_meta (some m) dirmode filemode uidArg gidArg
        euid egid now).1 "mode" = some dirmode ∧
      lookupKey ( parse_meta (some m) dirmode filemode uidArg gidArg
        euid egid now).2 "mode" = some filemode) := by
  constructor
  · intro hlook
    have hk : hasKey m "mode" = true := hasKey_of_lookup m "mode" mval hlook
    have hbr : parse_meta (some m) dirmode filemode uidArg gidArg euid egid now =
        parse_meta_tail m m uidArg gidArg euid egid now := by
      rw [parse_meta, if_neg (by simp [hk])]
    rw [hbr]
    have ht := parse_meta_tail_mode m m uidArg gidArg euid egid now
    exact ⟨ht.1.trans hlook, ht.2.trans hlook⟩
  · intro hk
    have hbr : parse_meta (some m) dirmode filemode uidArg gidArg euid egid now =
        parse_meta_tail (setKey m "mode" dirmode) (setKey m "mode" filemode)
          uidArg gidArg euid egid now := by
      rw [parse_meta, if_pos hk]
    rw [hbr]
    have ht := parse_meta_tail_mode (setKey m "mode" dirmode)
      (setKey m "mode" filemode) uidArg gidArg euid egid now
    exact ⟨ht.1.trans (lookupKey_setKey_same m "mode" dirmode),
      ht.2.trans (lookupKey_setKey_same m "mode" filemode)⟩

/-- Witness for C10: a user-supplied mode "777" lands in both templates
untouched by the defaults, and without a user mode the per-role defaults
509 / 33204 land in the respective templates. -/
theorem parse_meta_mode_witness :
    lookupKey ( parse_meta (some [("mode", "777")]) "509" "33204" none none
      "1000" "1000" "99").1 "mode" = some "777" ∧
    lookupKey ( parse_meta (some [("mode", "777")]) "509" "33204" none none
      "1000" "1000" "99").2 "mode" = some "777" ∧
    lookupKey ( parse_meta (some [("uid", "42")]) "509" "33204" none none
      "1000" "1000" "99").1 "mode" = some "509" ∧
    lookupKey ( parse_meta (some [("uid", "42")]) "509" "33204" none none
      "1000" "1000" "99").2 "mode" = some "33204" :=
  ⟨((parse_meta_mode [("mode", "777")] "777" "509" "33204" none none
      "1000" "1000" "99").1 (by decide)).1,
   ((parse_meta_mode [("mode", "777")] "777" "509" "33204" none none
      "1000" "1000" "99").1 (by decide)).2,
   ((parse_meta_mode [("uid", "42")] "x" "509" "33204" none none
      "1000" "1000" "99").2 (by decide)).1,
   ((parse_meta_mode [("uid", "42")] "x" "509" "33204" none none
      "1000" "1000" "99").2 (by decide)).2⟩
